import Mathlib

/-!
# go-pocc: API registry and contract backend

A shallow embedding of

* `internal/poccapi/backend.go` : `GetAPIs`
* `pocc/bind.go` : `NewContractBackend`, `toCallArgs`, `toBlockNumber`,
  `PendingNonceAt`, `SendTransaction`
* `cmd/pocc/consolecmd_test.go` : `ipcAPIs`, `trulyRandInt`

Go pointers are addresses (`Nat`), `new(T)` takes the next free address of an
explicit allocator state, `*big.Int` is `Option Int`, Go's `(value, error)`
results are pairs whose error component is an `Option`, and calls into
collaborators that are not part of these files are recorded in a call trace.
-/

namespace Pocc

/-! ## Data model -/

/-- Address of a heap object (a Go pointer). -/
abbrev Ptr := Nat

/-- Allocator state: the number of `AddrLocker` objects allocated so far, which
is also the address the next `new(AddrLocker)` returns. -/
abbrev Heap := Nat

/-- Go `new(AddrLocker)`: returns a pointer to a fresh locker and the allocator
state after the allocation. -/
def newAddrLocker (h : Heap) : Ptr × Heap := (h, h + 1)

/-- An implementation of the `Backend` interface: the identity of the
implementing object and the account manager its `AccountManager()` returns. -/
structure Backend where
  impl : Ptr
  AccountManager : Ptr
deriving DecidableEq, Repr

/-- Service object `PublicPoccAPI`. -/
structure PublicPoccAPI where
  b : Backend
deriving DecidableEq, Repr

/-- Service object `PublicBlockChainAPI`. -/
structure PublicBlockChainAPI where
  b : Backend
deriving DecidableEq, Repr

/-- Service object `PublicTransactionPoolAPI`: a backend and a nonce lock. -/
structure PublicTransactionPoolAPI where
  b : Backend
  nonceLock : Ptr
deriving DecidableEq, Repr

/-- Service object `PublicTxPoolAPI`. -/
structure PublicTxPoolAPI where
  b : Backend
deriving DecidableEq, Repr

/-- Service object `PublicDebugAPI`. -/
structure PublicDebugAPI where
  b : Backend
deriving DecidableEq, Repr

/-- Service object `PrivateDebugAPI`. -/
structure PrivateDebugAPI where
  b : Backend
deriving DecidableEq, Repr

/-- Service object `PublicAccountAPI`: wraps the account manager only. -/
structure PublicAccountAPI where
  am : Ptr
deriving DecidableEq, Repr

/-- Service object `PrivateAccountAPI`: a backend and a nonce lock. -/
structure PrivateAccountAPI where
  b : Backend
  nonceLock : Ptr
deriving DecidableEq, Repr

/-- Modelled from the spec: the constructor `NewPublicPoccAPI` lives in the
poccapi package outside the files embedded here; per the spec each API object
wraps the Backend it is given. -/
def NewPublicPoccAPI (b : Backend) : PublicPoccAPI := ⟨b⟩

/-- Modelled from the spec: the constructor `NewPublicBlockChainAPI` is outside
the embedded files; the API object wraps the Backend it is given. -/
def NewPublicBlockChainAPI (b : Backend) : PublicBlockChainAPI := ⟨b⟩

/-- Modelled from the spec: the constructor `NewPublicTransactionPoolAPI` is
outside the embedded files; the API object wraps the Backend and the injected
AddrLocker, and creates no locker of its own. -/
def NewPublicTransactionPoolAPI (b : Backend) (nonceLock : Ptr) :
    PublicTransactionPoolAPI := ⟨b, nonceLock⟩

/-- Modelled from the spec: the constructor `NewPublicTxPoolAPI` is outside the
embedded files; the API object wraps the Backend it is given. -/
def NewPublicTxPoolAPI (b : Backend) : PublicTxPoolAPI := ⟨b⟩

/-- Modelled from the spec: the constructor `NewPublicDebugAPI` is outside the
embedded files; the API object wraps the Backend it is given. -/
def NewPublicDebugAPI (b : Backend) : PublicDebugAPI := ⟨b⟩

/-- Modelled from the spec: the constructor `NewPrivateDebugAPI` is outside the
embedded files; the API object wraps the Backend it is given. -/
def NewPrivateDebugAPI (b : Backend) : PrivateDebugAPI := ⟨b⟩

/-- Modelled from the spec: the constructor `NewPublicAccountAPI` is outside the
embedded files; the API object wraps the account manager it is given. -/
def NewPublicAccountAPI (am : Ptr) : PublicAccountAPI := ⟨am⟩

/-- Modelled from the spec: the constructor `NewPrivateAccountAPI` is outside
the embedded files; the API object wraps the Backend and the injected
AddrLocker, and creates no locker of its own. -/
def NewPrivateAccountAPI (b : Backend) (nonceLock : Ptr) : PrivateAccountAPI :=
  ⟨b, nonceLock⟩

/-- The `Service interface{}` field of `rpc.API`: any of the service objects. -/
inductive Service where
  | publicPocc (s : PublicPoccAPI)
  | publicBlockChain (s : PublicBlockChainAPI)
  | publicTransactionPool (s : PublicTransactionPoolAPI)
  | publicTxPool (s : PublicTxPoolAPI)
  | publicDebug (s : PublicDebugAPI)
  | privateDebug (s : PrivateDebugAPI)
  | publicAccount (s : PublicAccountAPI)
  | privateAccount (s : PrivateAccountAPI)
deriving DecidableEq, Repr

/-- The nonce lock a service was constructed with, when it has one: only the
transaction-submitting services carry a locker. -/
def Service.lockOf : Service → Option Ptr
  | .publicTransactionPool s => some s.nonceLock
  | .privateAccount s => some s.nonceLock
  | _ => none

/-- Go `rpc.API` as used by the struct literals of `GetAPIs`; `Public` has the
Go zero value `false` when the literal leaves it out. -/
structure API where
  Namespace : String
  Version : String
  Service : Service
  Public : Bool := false
deriving DecidableEq, Repr

/-! ## `internal/poccapi/backend.go` -/

/-- Go `GetAPIs(apiBackend)`, threaded through the allocator state. -/
def GetAPIs (apiBackend : Backend) (h : Heap) : List API × Heap :=
  let (nonceLock, h1) := newAddrLocker h
  ([ { Namespace := "pocc"
       Version := "1.0"
       Service := .publicPocc (NewPublicPoccAPI apiBackend)
       Public := true },
     { Namespace := "pocc"
       Version := "1.0"
       Service := .publicBlockChain (NewPublicBlockChainAPI apiBackend)
       Public := true },
     { Namespace := "pocc"
       Version := "1.0"
       Service := .publicTransactionPool (NewPublicTransactionPoolAPI apiBackend nonceLock)
       Public := true },
     { Namespace := "txpool"
       Version := "1.0"
       Service := .publicTxPool (NewPublicTxPoolAPI apiBackend)
       Public := true },
     { Namespace := "debug"
       Version := "1.0"
       Service := .publicDebug (NewPublicDebugAPI apiBackend)
       Public := true },
     { Namespace := "debug"
       Version := "1.0"
       Service := .privateDebug (NewPrivateDebugAPI apiBackend) },
     { Namespace := "pocc"
       Version := "1.0"
       Service := .publicAccount (NewPublicAccountAPI apiBackend.AccountManager)
       Public := true },
     { Namespace := "personal"
       Version := "1.0"
       Service := .privateAccount (NewPrivateAccountAPI apiBackend nonceLock)
       Public := false } ], h1)

/-- The lockers held by the services of an API list, in list order. -/
def lockersOf (apis : List API) : List Ptr :=
  apis.filterMap fun e => e.Service.lockOf

/-! ## `pocc/bind.go` : construction -/

/-- Go `ContractBackend`: the three API wrappers. -/
structure ContractBackend where
  eapi : PublicPoccAPI
  bcapi : PublicBlockChainAPI
  txapi : PublicTransactionPoolAPI
deriving DecidableEq, Repr

/-- Go `NewContractBackend(apiBackend)`, threaded through the allocator state:
the `txapi` is built with `new(poccapi.AddrLocker)`. -/
def NewContractBackend (apiBackend : Backend) (h : Heap) : ContractBackend × Heap :=
  let (lock, h1) := newAddrLocker h
  ({ eapi := NewPublicPoccAPI apiBackend
     bcapi := NewPublicBlockChainAPI apiBackend
     txapi := NewPublicTransactionPoolAPI apiBackend lock }, h1)

/-! ## `pocc/bind.go` : conversions -/

/-- Go `common.Address` (20 bytes), kept abstract as a number. -/
abbrev Address := Nat

/-- Go `[]byte`. -/
abbrev Bytes := List UInt8

/-- Go `error`: `none` is the nil error. -/
abbrev Error := Option String

/-- Two's-complement wrap of an integer to a signed machine word of `w` bits. -/
def wrapInt (w : Nat) (z : Int) : Int :=
  (z + 2 ^ (w - 1)) % 2 ^ w - 2 ^ (w - 1)

/-- Go `(*big.Int).Int64`: the low 64 bits of the magnitude as an `int64`,
negated (with wrap) when the number is negative. -/
def bigInt_Int64 (x : Int) : Int :=
  let v := wrapInt 64 ((x.natAbs % 2 ^ 64 : Nat) : Int)
  if x < 0 then wrapInt 64 (-v) else v

/-- Go `rpc.BlockNumber`, an `int64`: `toBlockNumber` converts an `int64` into
it directly. -/
abbrev BlockNumber := Int

/-- Modelled from the spec: the constant `rpc.LatestBlockNumber` is declared in
the rpc package, outside the embedded files. The spec's BlockNumber is explicit
height, latest or pending; heights are non-negative, so the tags are negative
`int64` values, and the rpc package uses -1 for latest. -/
def LatestBlockNumber : BlockNumber := -1

/-- Modelled from the spec: the constant `rpc.PendingBlockNumber` is declared
in the rpc package, outside the embedded files; see `LatestBlockNumber`. The
rpc package uses -2 for pending. -/
def PendingBlockNumber : BlockNumber := -2

/-- Go `toBlockNumber(num *big.Int)`; `none` is the nil pointer. -/
def toBlockNumber (num : Option Int) : BlockNumber :=
  match num with
  | none => LatestBlockNumber
  | some n => bigInt_Int64 n

/-- Go `pocc.CallMsg` as read by `toCallArgs`: the pointer fields are options.
`rest` stands for whatever further fields the declaration (which is outside the
embedded files) may carry. -/
structure CallMsg (ρ : Type) where
  From : Address
  To : Option Address
  Gas : Option Int
  GasPrice : Option Int
  Value : Option Int
  Data : Bytes
  rest : ρ

/-- Go `poccapi.CallArgs` as written by `toCallArgs`: `Gas`, `GasPrice` and
`Value` are `hexutil.Big` values whose Go zero value is the number zero. -/
structure CallArgs where
  From : Address
  To : Option Address
  Gas : Int := 0
  GasPrice : Int := 0
  Value : Int := 0
  Data : Bytes
deriving DecidableEq, Repr

/-- Go `toCallArgs(msg)`. -/
def toCallArgs {ρ : Type} (msg : CallMsg ρ) : CallArgs :=
  let args : CallArgs := { To := msg.To, From := msg.From, Data := msg.Data }
  let args := match msg.Gas with
    | some g => { args with Gas := g }
    | none => args
  let args := match msg.GasPrice with
    | some g => { args with GasPrice := g }
    | none => args
  let args := match msg.Value with
    | some v => { args with Value := v }
    | none => args
  args

/-! ## `pocc/bind.go` : delegating operations -/

/-- Modelled from the spec: `types.Transaction` is declared outside the embedded
files; per the spec it carries nonce, gas limit, gas price, value, recipient
(nil for contract creation) and payload. -/
structure Transaction where
  nonce : Nat
  gasLimit : Int
  gasPrice : Int
  value : Int
  recipient : Option Address
  payload : Bytes
deriving DecidableEq, Repr

/-- A call made into a collaborator outside the embedded files, with its
arguments. `SendTx` (the backend's pool entry point) and
`SendTransactionAPI` (the signing entry point of the transaction-pool API) are
the submission paths other than the raw one. -/
inductive Call where
  | GetTransactionCount (api : PublicTransactionPoolAPI) (address : Address)
      (blockNr : BlockNumber)
  | EncodeToBytes (tx : Transaction)
  | SendRawTransaction (api : PublicTransactionPoolAPI) (encodedTx : Bytes)
  | SendTx (b : Backend) (tx : Transaction)
  | SendTransactionAPI (api : PublicTransactionPoolAPI) (tx : Transaction)
deriving DecidableEq, Repr

/-- Whether a collaborator call is a transaction submission. -/
def Call.isSubmission : Call → Bool
  | .SendRawTransaction _ _ => true
  | .SendTx _ _ => true
  | .SendTransactionAPI _ _ => true
  | _ => false

/-- The collaborators `bind.go` calls into, as they answer at the time of the
call: `GetTransactionCount` returns `(*hexutil.Uint64, error)`,
`rlp.EncodeToBytes` returns `([]byte, error)` and `SendRawTransaction` returns
`(common.Hash, error)`. -/
structure Collaborators where
  GetTransactionCount : PublicTransactionPoolAPI → Address → BlockNumber → Option Nat × Error
  EncodeToBytes : Transaction → Bytes × Error
  SendRawTransaction : PublicTransactionPoolAPI → Bytes → Nat × Error

/-- A result together with the collaborator calls made to produce it, in
order. -/
structure Traced (α : Type) where
  val : α
  calls : List Call

/-- Go `(b *ContractBackend).PendingNonceAt(ctx, account)`, returning
`(nonce, err)`; `uint64(*out)` is the value reduced to 64 bits. -/
def PendingNonceAt (env : Collaborators) (b : ContractBackend) (account : Address) :
    Traced (Nat × Error) :=
  let (out, err) := env.GetTransactionCount b.txapi account PendingBlockNumber
  let nonce : Nat := match out with
    | some v => v % 2 ^ 64
    | none => 0
  ⟨(nonce, err), [.GetTransactionCount b.txapi account PendingBlockNumber]⟩

/-- Go `(b *ContractBackend).SendTransaction(ctx, tx)`: the error of
`rlp.EncodeToBytes` is assigned to the blank identifier. -/
def SendTransaction (env : Collaborators) (b : ContractBackend) (tx : Transaction) :
    Traced Error :=
  let (raw, _) := env.EncodeToBytes tx
  let (_, err) := env.SendRawTransaction b.txapi raw
  ⟨err, [.EncodeToBytes tx, .SendRawTransaction b.txapi raw]⟩

/-! ## `cmd/pocc/consolecmd_test.go` -/

/-- Go constant `ipcAPIs`. -/
def ipcAPIs : String :=
  "admin:1.0 debug:1.0 eth:1.0 miner:1.0 net:1.0 personal:1.0 rpc:1.0 shh:1.0 txpool:1.0 web3:1.0"

/-- Split a character list at every space. -/
def splitFields : List Char → List (List Char)
  | [] => [[]]
  | c :: cs =>
    if c = ' ' then [] :: splitFields cs
    else match splitFields cs with
      | [] => [[c]]
      | w :: ws => (c :: w) :: ws

/-- The space-separated tokens of a module list. -/
def modules (s : String) : List String :=
  (splitFields s.toList).map String.mk

/-- The `namespace:version` token of a registered API entry. -/
def apiToken (e : API) : String :=
  e.Namespace ++ ":" ++ e.Version

/-- Go `trulyRandInt(lo, hi)` on a platform whose `int` has `w` bits.
`randInt max` is the number `rand.Int(rand.Reader, max)` draws; its error is
assigned to the blank identifier. -/
def trulyRandInt (w : Nat) (randInt : Int → Int) (lo hi : Int) : Int :=
  let num := randInt (wrapInt 64 (wrapInt w (hi - lo)))
  wrapInt w (wrapInt w (bigInt_Int64 num) + lo)

/-! ## Sample collaborators -/

/-- A backend object used for concrete evaluations. -/
def sampleBackend : Backend := ⟨7, 9⟩

/-- A transaction used for concrete evaluations. -/
def sampleTx : Transaction :=
  { nonce := 0, gasLimit := 21000, gasPrice := 1, value := 5, recipient := some 17, payload := [] }

/-- Collaborators that answer successfully: the pending count is 5, the encoder
returns some bytes, the raw entry point accepts them. -/
def healthyNode : Collaborators :=
  { GetTransactionCount := fun _ _ _ => (some 5, none)
    EncodeToBytes := fun _ => ([0xc0], none)
    SendRawTransaction := fun _ _ => (1, none) }

/-- Collaborators where the count lookup fails, the encoder fails (returning
nil bytes and an error, as `rlp.EncodeToBytes` does on failure) and the raw
entry point rejects input it cannot decode. -/
def failingEncoderNode : Collaborators :=
  { GetTransactionCount := fun _ _ _ => (none, some "state not found")
    EncodeToBytes := fun _ => ([], some "rlp: encoding failed")
    SendRawTransaction := fun _ raw => if raw = [] then (0, some "EOF") else (1, none) }

/-- As `failingEncoderNode`, with a raw entry point that accepts whatever it is
handed. -/
def failingEncoderLenientNode : Collaborators :=
  { failingEncoderNode with SendRawTransaction := fun _ _ => (1, none) }

/-- Collaborators whose count lookup answers with neither a count nor an error
(a nil pointer and a nil error); encoder and raw entry point as in
`healthyNode`. -/
def noCountNode : Collaborators :=
  { healthyNode with GetTransactionCount := fun _ _ _ => (none, none) }

/-! ## Shared lemmas -/

theorem GetAPIs_heap (b : Backend) (h : Heap) : (GetAPIs b h).2 = h + 1 := rfl

theorem GetAPIs_lockers (b : Backend) (h : Heap) : lockersOf (GetAPIs b h).1 = [h, h] := rfl

theorem NewContractBackend_lock (b : Backend) (h : Heap) :
    (NewContractBackend b h).1.txapi.nonceLock = h := rfl

theorem NewContractBackend_heap (b : Backend) (h : Heap) :
    (NewContractBackend b h).2 = h + 1 := rfl

theorem GetAPIs_mem (b : Backend) (h : Heap) (e : API) :
    e ∈ (GetAPIs b h).1 ↔
      e = ⟨"pocc", "1.0", .publicPocc ⟨b⟩, true⟩ ∨
      e = ⟨"pocc", "1.0", .publicBlockChain ⟨b⟩, true⟩ ∨
      e = ⟨"pocc", "1.0", .publicTransactionPool ⟨b, h⟩, true⟩ ∨
      e = ⟨"txpool", "1.0", .publicTxPool ⟨b⟩, true⟩ ∨
      e = ⟨"debug", "1.0", .publicDebug ⟨b⟩, true⟩ ∨
      e = ⟨"debug", "1.0", .privateDebug ⟨b⟩, false⟩ ∨
      e = ⟨"pocc", "1.0", .publicAccount ⟨b.AccountManager⟩, true⟩ ∨
      e = ⟨"personal", "1.0", .privateAccount ⟨b, h⟩, false⟩ := by
  simp [GetAPIs, newAddrLocker, NewPublicPoccAPI, NewPublicBlockChainAPI,
    NewPublicTransactionPoolAPI, NewPublicTxPoolAPI, NewPublicDebugAPI, NewPrivateDebugAPI,
    NewPublicAccountAPI, NewPrivateAccountAPI]

/-! ## The API registry -/

/-- C1: one call of `GetAPIs` performs exactly one `AddrLocker` allocation (the
allocator advances by one), the list holds a `PublicTransactionPoolAPI` entry
and a `PrivateAccountAPI` entry, and every service of the list that carries a
locker carries the one allocated by this call. -/
theorem GetAPIs_one_shared_locker (b : Backend) (h : Heap) :
    (GetAPIs b h).2 = (newAddrLocker h).2 ∧ (newAddrLocker h).2 = h + 1 ∧
    (∃ e ∈ (GetAPIs b h).1, ∃ s, e.Service = .publicTransactionPool s ∧
        s.nonceLock = (newAddrLocker h).1) ∧
    (∃ e ∈ (GetAPIs b h).1, ∃ s, e.Service = .privateAccount s ∧
        s.nonceLock = (newAddrLocker h).1) ∧
    (∀ e ∈ (GetAPIs b h).1, ∀ l, e.Service.lockOf = some l → l = (newAddrLocker h).1) ∧
    lockersOf (GetAPIs b h).1 = [(newAddrLocker h).1, (newAddrLocker h).1] := by
  refine ⟨rfl, rfl, ?_, ?_, ?_, rfl⟩
  · exact ⟨⟨"pocc", "1.0", .publicTransactionPool ⟨b, h⟩, true⟩,
      (GetAPIs_mem b h _).2 (by simp), ⟨b, h⟩, rfl, rfl⟩
  · exact ⟨⟨"personal", "1.0", .privateAccount ⟨b, h⟩, false⟩,
      (GetAPIs_mem b h _).2 (by simp), ⟨b, h⟩, rfl, rfl⟩
  · intro e he l hl
    rcases (GetAPIs_mem b h e).1 he with rfl | rfl | rfl | rfl | rfl | rfl | rfl | rfl <;>
      simp_all [Service.lockOf, newAddrLocker]

/-- C1, at a concrete backend and allocator state. -/
theorem GetAPIs_one_shared_locker_witness :
    (GetAPIs ⟨7, 9⟩ 3).2 = 4 ∧
    (∀ e ∈ (GetAPIs ⟨7, 9⟩ 3).1, ∀ l, e.Service.lockOf = some l → l = 3) :=
  ⟨(GetAPIs_one_shared_locker ⟨7, 9⟩ 3).1,
   (GetAPIs_one_shared_locker ⟨7, 9⟩ 3).2.2.2.2.1⟩

/-- C2 as stated fails: after `GetAPIs` on a backend, `NewContractBackend` on
the same backend gives its `txapi` locker 1, while both locker-carrying
services of `GetAPIs` hold locker 0. -/
theorem NewContractBackend_locker_not_shared :
    lockersOf (GetAPIs ⟨7, 9⟩ 0).1 = [0, 0] ∧
    (NewContractBackend ⟨7, 9⟩ (GetAPIs ⟨7, 9⟩ 0).2).1.txapi.nonceLock = 1 ∧
    (NewContractBackend ⟨7, 9⟩ (GetAPIs ⟨7, 9⟩ 0).2).1.txapi.nonceLock ∉
      lockersOf (GetAPIs ⟨7, 9⟩ 0).1 := by
  decide

/-- C2, amended: the two locker-carrying services that `GetAPIs` builds share
one locker, and the `txapi` of `NewContractBackend` holds a locker of its own,
freshly allocated by that call: whichever of the two calls comes first, and
however many lockers `k` are allocated in between, the locker of `txapi` is
not among the lockers of the registered services. -/
theorem NewContractBackend_own_locker (b : Backend) (h k : Heap) :
    lockersOf (GetAPIs b h).1 = [h, h] ∧
    (NewContractBackend b h).1.txapi.nonceLock = (newAddrLocker h).1 ∧
    (NewContractBackend b h).2 = h + 1 ∧
    (NewContractBackend b ((GetAPIs b h).2 + k)).1.txapi.nonceLock ∉
      lockersOf (GetAPIs b h).1 ∧
    (NewContractBackend b h).1.txapi.nonceLock ∉
      lockersOf (GetAPIs b ((NewContractBackend b h).2 + k)).1 := by
  refine ⟨rfl, rfl, rfl, ?_, ?_⟩
  · rw [GetAPIs_lockers, NewContractBackend_lock, GetAPIs_heap]
    simp only [List.mem_cons, List.mem_singleton, List.not_mem_nil, or_false, or_self]
    have key : ∀ a c : ℕ, ¬ (a + 1 + c = a) := by intro a c; omega
    exact key h k
  · rw [GetAPIs_lockers, NewContractBackend_lock, NewContractBackend_heap]
    simp only [List.mem_cons, List.mem_singleton, List.not_mem_nil, or_false, or_self]
    have key : ∀ a c : ℕ, ¬ (a = a + 1 + c) := by intro a c; omega
    exact key h k

/-- C3: every entry of `GetAPIs` has version "1.0"; the namespaces that occur
are exactly pocc, txpool, debug and personal; personal entries are non-public;
pocc and txpool entries are public; the debug namespace has exactly two
entries, one public and one non-public. -/
theorem GetAPIs_namespaces (b : Backend) (h : Heap) :
    (∀ e ∈ (GetAPIs b h).1, e.Version = "1.0") ∧
    (∀ ns : String, (∃ e ∈ (GetAPIs b h).1, e.Namespace = ns) ↔
        (ns = "pocc" ∨ ns = "txpool" ∨ ns = "debug" ∨ ns = "personal")) ∧
    (∀ e ∈ (GetAPIs b h).1, e.Namespace = "personal" → e.Public = false) ∧
    (∀ e ∈ (GetAPIs b h).1, e.Namespace = "pocc" ∨ e.Namespace = "txpool" →
        e.Public = true) ∧
    ((GetAPIs b h).1.filter fun e => e.Namespace == "debug").length = 2 ∧
    ((GetAPIs b h).1.filter fun e => e.Namespace == "debug" && e.Public).length = 1 ∧
    ((GetAPIs b h).1.filter fun e => e.Namespace == "debug" && !e.Public).length = 1 := by
  refine ⟨?_, ?_, ?_, ?_, rfl, rfl, rfl⟩
  · intro e he
    rcases (GetAPIs_mem b h e).1 he with rfl | rfl | rfl | rfl | rfl | rfl | rfl | rfl <;> rfl
  · intro ns
    constructor
    · rintro ⟨e, he, rfl⟩
      rcases (GetAPIs_mem b h e).1 he with rfl | rfl | rfl | rfl | rfl | rfl | rfl | rfl <;>
        simp
    · rintro (rfl | rfl | rfl | rfl)
      · exact ⟨⟨"pocc", "1.0", .publicPocc ⟨b⟩, true⟩, (GetAPIs_mem b h _).2 (by simp), rfl⟩
      · exact ⟨⟨"txpool", "1.0", .publicTxPool ⟨b⟩, true⟩, (GetAPIs_mem b h _).2 (by simp), rfl⟩
      · exact ⟨⟨"debug", "1.0", .publicDebug ⟨b⟩, true⟩, (GetAPIs_mem b h _).2 (by simp), rfl⟩
      · exact ⟨⟨"personal", "1.0", .privateAccount ⟨b, h⟩, false⟩,
          (GetAPIs_mem b h _).2 (by simp), rfl⟩
  · intro e he hns
    rcases (GetAPIs_mem b h e).1 he with rfl | rfl | rfl | rfl | rfl | rfl | rfl | rfl <;>
      simp_all
  · intro e he hns
    rcases (GetAPIs_mem b h e).1 he with rfl | rfl | rfl | rfl | rfl | rfl | rfl | rfl <;>
      simp_all

/-- C3, at a concrete backend: the personal entry of the list is non-public. -/
theorem GetAPIs_namespaces_witness :
    (⟨"personal", "1.0", .privateAccount ⟨⟨7, 9⟩, 0⟩, false⟩ : API).Public = false :=
  (GetAPIs_namespaces ⟨7, 9⟩ 0).2.2.1 ⟨"personal", "1.0", .privateAccount ⟨⟨7, 9⟩, 0⟩, false⟩
    (by decide) rfl

/-! ## Block numbers and call arguments -/

theorem wrapInt_of_range (w : Nat) (hw : 0 < w) (z : Int)
    (h1 : -2 ^ (w - 1) ≤ z) (h2 : z < 2 ^ (w - 1)) : wrapInt w z = z := by
  unfold wrapInt
  have hp : (2 : Int) ^ w = 2 * 2 ^ (w - 1) := by
    obtain ⟨k, rfl⟩ : ∃ k, w = k + 1 := ⟨w - 1, by omega⟩
    simp [pow_succ, mul_comm]
  rw [hp, Int.emod_eq_of_lt (by omega) (by omega)]
  omega

theorem bigInt_Int64_of_range (z : Int) (h1 : -2 ^ 63 ≤ z) (h2 : z < 2 ^ 63) :
    bigInt_Int64 z = z := by
  unfold bigInt_Int64 wrapInt
  simp only [show (64 : ℕ) - 1 = 63 from rfl]
  split_ifs <;> omega

/-- C4 as stated fails: the non-nil numbers -1 and -2 resolve to the latest and
the pending tag, and the distinct non-nil numbers 0 and 2^64 resolve to the
same BlockNumber. -/
theorem toBlockNumber_hits_tags_and_collides :
    toBlockNumber (some (-1)) = LatestBlockNumber ∧
    toBlockNumber (some (-2)) = PendingBlockNumber ∧
    (0 : Int) ≠ 2 ^ 64 ∧
    toBlockNumber (some 0) = toBlockNumber (some (2 ^ 64)) := by
  decide

/-- C4, amended: nil maps to the latest tag; every non-nil number `num` maps
to `BlockNumber(num.Int64())`; a non-nil number that fits an `int64` maps to
itself, so a height in `[0, 2^63)` is mapped to that height, which is neither
the latest nor the pending tag, and two distinct numbers that fit an `int64`
resolve to distinct BlockNumbers. -/
theorem toBlockNumber_on_int64 :
    toBlockNumber none = LatestBlockNumber ∧
    (∀ n : Int, -2 ^ 63 ≤ n → n < 2 ^ 63 → toBlockNumber (some n) = n) ∧
    (∀ n : Int, 0 ≤ n → n < 2 ^ 63 →
      toBlockNumber (some n) = n ∧
      toBlockNumber (some n) ≠ LatestBlockNumber ∧
      toBlockNumber (some n) ≠ PendingBlockNumber) ∧
    (∀ a b : Int, -2 ^ 63 ≤ a → a < 2 ^ 63 → -2 ^ 63 ≤ b → b < 2 ^ 63 → a ≠ b →
      toBlockNumber (some a) ≠ toBlockNumber (some b)) ∧
    (∀ n : Int, toBlockNumber (some n) = bigInt_Int64 n) := by
  have key : ∀ n : Int, -2 ^ 63 ≤ n → n < 2 ^ 63 → toBlockNumber (some n) = n :=
    fun n h1 h2 => bigInt_Int64_of_range n h1 h2
  refine ⟨rfl, key, ?_, ?_, fun _ => rfl⟩
  · intro n h0 h1
    have e := key n (by omega) h1
    refine ⟨e, ?_, ?_⟩
    · rw [e]; show n ≠ (-1 : Int); omega
    · rw [e]; show n ≠ (-2 : Int); omega
  · intro a b ha1 ha2 hb1 hb2 hab
    rw [key a ha1 ha2, key b hb1 hb2]
    exact hab

/-- C4, amended, at heights 12 and 13. -/
theorem toBlockNumber_on_int64_witness :
    toBlockNumber (some 12) = 12 ∧ toBlockNumber (some 12) ≠ toBlockNumber (some 13) :=
  ⟨toBlockNumber_on_int64.2.1 12 (by decide) (by decide),
   toBlockNumber_on_int64.2.2.2.1 12 13 (by decide) (by decide) (by decide) (by decide)
     (by decide)⟩

/-- C5: `toCallArgs` is total; it copies From, To and Data; Gas, GasPrice and
Value are the message's value when present and zero when nil; and the result
does not change when anything other than those six fields changes. -/
theorem toCallArgs_fields {ρ σ : Type} (msg : CallMsg ρ) (r : σ) :
    (toCallArgs msg).From = msg.From ∧
    (toCallArgs msg).To = msg.To ∧
    (toCallArgs msg).Data = msg.Data ∧
    (toCallArgs msg).Gas = msg.Gas.getD 0 ∧
    (toCallArgs msg).GasPrice = msg.GasPrice.getD 0 ∧
    (toCallArgs msg).Value = msg.Value.getD 0 ∧
    toCallArgs (⟨msg.From, msg.To, msg.Gas, msg.GasPrice, msg.Value, msg.Data, r⟩ : CallMsg σ)
      = toCallArgs msg := by
  obtain ⟨f, t, g, gp, v, d, x⟩ := msg
  cases g <;> cases gp <;> cases v <;> simp [toCallArgs]

/-! ## Delegating operations -/

/-- C6 as stated fails: when the delegate answers with neither a count nor an
error, `PendingNonceAt` returns nonce 0 with a nil error, so a lookup that
found no count is reported as a successful nonce of zero. -/
theorem PendingNonceAt_no_count_is_zero :
    noCountNode.GetTransactionCount (NewContractBackend sampleBackend 0).1.txapi 42
      PendingBlockNumber = (none, none) ∧
    (PendingNonceAt noCountNode (NewContractBackend sampleBackend 0).1 42).val = (0, none) := by
  decide

/-- C6, amended: `PendingNonceAt` makes exactly one collaborator call, to
`GetTransactionCount` on its `txapi` for the account at the pending block; the
error it returns is that call's error, whatever the call returned; when the
call returns a (64-bit) count `n` the nonce is `n`, so a success with count `n`
is `(n, nil)`; when the call returns a non-nil error that error is returned;
and when the call returns no count the nonce is 0, paired with the call's
error, which is `(0, nil)` when that error is nil. -/
theorem PendingNonceAt_delegates (env : Collaborators) (b : ContractBackend)
    (account : Address) :
    (PendingNonceAt env b account).calls =
      [.GetTransactionCount b.txapi account PendingBlockNumber] ∧
    (PendingNonceAt env b account).val.2 =
      (env.GetTransactionCount b.txapi account PendingBlockNumber).2 ∧
    (∀ (n : Nat) (e : Error), n < 2 ^ 64 →
      env.GetTransactionCount b.txapi account PendingBlockNumber = (some n, e) →
      (PendingNonceAt env b account).val = (n, e)) ∧
    (∀ msg : String,
      (env.GetTransactionCount b.txapi account PendingBlockNumber).2 = some msg →
      (PendingNonceAt env b account).val.2 = some msg) ∧
    (∀ e : Error,
      env.GetTransactionCount b.txapi account PendingBlockNumber = (none, e) →
      (PendingNonceAt env b account).val = (0, e)) := by
  refine ⟨rfl, rfl, ?_, fun msg h => h, ?_⟩
  · intro n e hn hq
    simp only [PendingNonceAt, hq]
    rw [Nat.mod_eq_of_lt hn]
  · intro e hq
    simp only [PendingNonceAt, hq]

/-- C6, amended, at concrete collaborators: a successful count of 5 is returned
as `(5, nil)`, and a lookup that fails without a count is returned as nonce 0
with its error. -/
theorem PendingNonceAt_delegates_witness :
    (PendingNonceAt healthyNode (NewContractBackend sampleBackend 0).1 42).val = (5, none) ∧
    (PendingNonceAt failingEncoderNode (NewContractBackend sampleBackend 0).1 42).val.2
      = some "state not found" ∧
    (PendingNonceAt failingEncoderNode (NewContractBackend sampleBackend 0).1 42).val
      = (0, some "state not found") :=
  ⟨(PendingNonceAt_delegates healthyNode (NewContractBackend sampleBackend 0).1 42).2.2.1 5
      none (by decide) rfl,
   (PendingNonceAt_delegates failingEncoderNode (NewContractBackend sampleBackend 0).1
      42).2.2.2.1 "state not found" rfl,
   (PendingNonceAt_delegates failingEncoderNode (NewContractBackend sampleBackend 0).1
      42).2.2.2.2 (some "state not found") rfl⟩

/-- C7 as stated fails: when the encoder fails, `SendTransaction` still calls
`SendRawTransaction` (with the nil bytes the encoder returned); the encoder's
error is not the result; and with an entry point that accepts those bytes the
result is the nil error. -/
theorem SendTransaction_swallows_encoder_error :
    (failingEncoderNode.EncodeToBytes sampleTx).2 = some "rlp: encoding failed" ∧
    (SendTransaction failingEncoderNode (NewContractBackend sampleBackend 0).1 sampleTx).calls =
      [.EncodeToBytes sampleTx,
       .SendRawTransaction (NewContractBackend sampleBackend 0).1.txapi []] ∧
    (SendTransaction failingEncoderNode (NewContractBackend sampleBackend 0).1 sampleTx).val =
      some "EOF" ∧
    (failingEncoderLenientNode.EncodeToBytes sampleTx).2 = some "rlp: encoding failed" ∧
    (SendTransaction failingEncoderLenientNode (NewContractBackend sampleBackend 0).1
      sampleTx).val = none := by
  decide

/-- C7, amended: `SendTransaction` encodes the transaction once, hands the
bytes the encoder returned to `SendRawTransaction` of its `txapi`, makes no
other collaborator call, so that the raw entry point is the only submission
path used, and returns exactly the error of that call; the encoder's error
plays no part in the result. -/
theorem SendTransaction_submits_raw (env : Collaborators) (b : ContractBackend)
    (tx : Transaction) :
    (SendTransaction env b tx).calls =
      [.EncodeToBytes tx, .SendRawTransaction b.txapi (env.EncodeToBytes tx).1] ∧
    (SendTransaction env b tx).calls.filter Call.isSubmission =
      [.SendRawTransaction b.txapi (env.EncodeToBytes tx).1] ∧
    (SendTransaction env b tx).val =
      (env.SendRawTransaction b.txapi (env.EncodeToBytes tx).1).2 :=
  ⟨rfl, rfl, rfl⟩

/-! ## Console tests -/

/-- C9, evaluated: the tokens of the entries `GetAPIs` registers that do not
occur in `ipcAPIs` are the four "pocc:1.0" tokens; `ipcAPIs` lists "eth:1.0"
instead. -/
theorem ipcAPIs_lacks_pocc :
    (((GetAPIs sampleBackend 0).1.map apiToken).filter
        fun t => decide (t ∉ modules ipcAPIs)) =
      ["pocc:1.0", "pocc:1.0", "pocc:1.0", "pocc:1.0"] ∧
    "eth:1.0" ∈ modules ipcAPIs ∧
    "eth:1.0" ∉ (GetAPIs sampleBackend 0).1.map apiToken := by
  decide

theorem trulyRandInt_eq (w : Nat) (hw : w = 32 ∨ w = 64) (randInt : Int → Int) (lo hi : Int)
    (hlo : -2 ^ (w - 1) ≤ lo) (hhi : hi < 2 ^ (w - 1)) (hlt : lo < hi)
    (hrep : hi - lo < 2 ^ (w - 1))
    (hr0 : 0 ≤ randInt (hi - lo)) (hr1 : randInt (hi - lo) < hi - lo) :
    trulyRandInt w randInt lo hi = lo + randInt (hi - lo) := by
  have hw0 : 0 < w := by rcases hw with rfl | rfl <;> decide
  have hp : (0 : Int) < 2 ^ (w - 1) := by positivity
  have hp63 : (2 : Int) ^ (w - 1) ≤ 2 ^ 63 := by rcases hw with rfl | rfl <;> decide
  have e1 : wrapInt 64 (wrapInt w (hi - lo)) = hi - lo := by
    rw [wrapInt_of_range w hw0 _ (by omega) hrep]
    exact wrapInt_of_range 64 (by decide) _
      (by simp only [show (64 : ℕ) - 1 = 63 from rfl]; omega)
      (by simp only [show (64 : ℕ) - 1 = 63 from rfl]; omega)
  unfold trulyRandInt
  simp only [e1]
  rw [bigInt_Int64_of_range _ (by omega) (by omega),
    wrapInt_of_range w hw0 (randInt (hi - lo)) (by omega) (by omega),
    wrapInt_of_range w hw0 (randInt (hi - lo) + lo) (by omega) (by omega)]
  omega

/-- C10: with `int` of 32 or 64 bits, for `lo < hi` with `hi - lo`
representable and a draw `r` with `0 ≤ r < hi - lo`, `trulyRandInt lo hi` is
`lo + r` and lies in `[lo, hi)`; in particular `trulyRandInt 1024 65536` lies
in `[1024, 65535]`. -/
theorem trulyRandInt_in_range :
    (∀ (w : Nat) (randInt : Int → Int) (lo hi : Int), (w = 32 ∨ w = 64) →
      -2 ^ (w - 1) ≤ lo → hi < 2 ^ (w - 1) → lo < hi → hi - lo < 2 ^ (w - 1) →
      0 ≤ randInt (hi - lo) → randInt (hi - lo) < hi - lo →
      trulyRandInt w randInt lo hi = lo + randInt (hi - lo) ∧
      lo ≤ trulyRandInt w randInt lo hi ∧ trulyRandInt w randInt lo hi < hi) ∧
    (∀ (w : Nat) (randInt : Int → Int), (w = 32 ∨ w = 64) →
      0 ≤ randInt 64512 → randInt 64512 < 64512 →
      1024 ≤ trulyRandInt w randInt 1024 65536 ∧
      trulyRandInt w randInt 1024 65536 ≤ 65535) := by
  constructor
  · intro w randInt lo hi hw hlo hhi hlt hrep hr0 hr1
    have e := trulyRandInt_eq w hw randInt lo hi hlo hhi hlt hrep hr0 hr1
    refine ⟨e, ?_, ?_⟩ <;> rw [e] <;> omega
  · intro w randInt hw hr0 hr1
    have e := trulyRandInt_eq w hw randInt 1024 65536
      (by rcases hw with rfl | rfl <;> decide) (by rcases hw with rfl | rfl <;> decide)
      (by decide) (by rcases hw with rfl | rfl <;> decide)
      (by simpa using hr0) (by simpa using hr1)
    have e2 : (65536 : Int) - 1024 = 64512 := by decide
    rw [e2] at e
    rw [e]
    omega

/-- C10, at a 64-bit `int` with the largest draw: the port is 65535. -/
theorem trulyRandInt_in_range_witness :
    trulyRandInt 64 (fun m => m - 1) 1024 65536 = 1024 + 64511 ∧
    1024 ≤ trulyRandInt 64 (fun m => m - 1) 1024 65536 ∧
    trulyRandInt 64 (fun m => m - 1) 1024 65536 < 65536 :=
  trulyRandInt_in_range.1 64 (fun m => m - 1) 1024 65536 (Or.inr rfl)
    (by decide) (by decide) (by decide) (by decide) (by decide) (by decide)

end Pocc
